import Mathlib

/-!
Verification of the FileMaker-CSV-to-SQLite importer (`scripts/import_data.py`).

Python strings are modelled as `List Char`, CSV rows as `List (List Char)`.
Each `import_*` function of the source is split into a row decoder (the
shape/identity checks and field mapping done per row) and an importer state
machine folding the decoder over the row list, mirroring the Python loop.
The SQLite `INSERT OR IGNORE` statements are modelled by `insertOrIgnore`
on an association-list store.
-/

deriving instance DecidableEq for Except

/-- A Python `str` value: a sequence of unicode characters. -/
abbrev PyStr := List Char

/-- One CSV row as produced by `csv.reader`: a list of string fields. -/
abbrev Row := List PyStr

/-- Python `row[i]`: the i-th field of a row (empty when absent; every use
below is guarded by a length check mirroring the source). -/
def field (row : Row) (i : Nat) : PyStr := List.getD row i []

/-- The characters Python's `str.strip()` (and `int()`) treat as whitespace.
Restricted to the ASCII whitespace range; Python additionally strips some
non-ASCII unicode spaces, which none of the claims or inputs involve. -/
def isPySpace (c : Char) : Bool :=
  c == ' ' || c == '\t' || c == '\n' || c == '\r' || c == '\x0b' || c == '\x0c'

/-- Python `s.strip()`: remove leading, then trailing, whitespace. -/
def pyStrip (l : PyStr) : PyStr :=
  List.rdropWhile isPySpace (List.dropWhile isPySpace l)

/-- Python `s.replace(a, b)` for single characters `a`, `b`. -/
def replaceChar (a b : Char) (l : PyStr) : PyStr :=
  l.map fun c => if c = a then b else c

/-- Python `s.replace(chr(13) ++ chr(10), chr(10))`: collapse each CR+LF pair
into one LF, scanning left to right. -/
def replaceCRLF : PyStr → PyStr
  | [] => []
  | [c] => [c]
  | a :: b :: rest =>
    if a = '\r' ∧ b = '\n' then '\n' :: replaceCRLF rest
    else a :: replaceCRLF (b :: rest)

/-- The transformation pipeline inside `clean_text` (source lines 24-32):
pilcrow to LF, vertical tab to LF, CR+LF to LF, CR to LF, U+FFFD to a
double quote, then strip. -/
def cleanList (l : PyStr) : PyStr :=
  pyStrip (replaceChar '�' '"'
    (replaceChar '\r' '\n'
      (replaceCRLF
        (replaceChar '\x0b' '\n'
          (replaceChar '¶' '\n' l)))))

/-- `clean_text` (source lines 19-33): `None`/empty input gives `None`;
otherwise run the pipeline and give `None` when the result is empty. -/
def clean_text (t : Option PyStr) : Option PyStr :=
  match t with
  | none => none
  | some l =>
    if l = [] then none
    else
      let r := cleanList l
      if r = [] then none else some r

/-- All-decimal-digit check used below. -/
def allDigits (l : List Char) : Bool := l.all Char.isDigit

/-- Numeric value of a decimal digit string. -/
def digitsToNat (l : List Char) : Nat :=
  l.foldl (fun a c => 10 * a + (c.toNat - '0'.toNat)) 0

/-- Model of Python `int(s)` on a string: strip whitespace, optional single
sign, then decimal digits; anything else raises `ValueError`, modelled as
`none`. (Python additionally accepts underscore digit grouping and non-ASCII
digits; no claim or counterexample below depends on those.) -/
def parseInt (s : PyStr) : Option Int :=
  match pyStrip s with
  | [] => none
  | c :: rest =>
    if c = '+' then
      if rest ≠ [] ∧ allDigits rest then some (Int.ofNat (digitsToNat rest)) else none
    else if c = '-' then
      if rest ≠ [] ∧ allDigits rest then some (-(Int.ofNat (digitsToNat rest))) else none
    else if allDigits (c :: rest) then some (Int.ofNat (digitsToNat (c :: rest))) else none

/-- Python `s.isdigit()` (ASCII fragment): nonempty and all digits. -/
def pyIsDigit (l : PyStr) : Bool := !l.isEmpty && allDigits l

-- ## Entity records and row decoders

/-- Rejection reasons shared by the item, cliche and literary-term decoders:
too few columns; identity missing or zero (the `if not id` path); or an
exception raised by `int()` on a non-numeric field, caught by the row-level
handler. -/
inductive Reason
  | shape
  | identMissing
  | identError
deriving DecidableEq, Repr

/-- The columns inserted into `items` (source lines 83-99). -/
structure ItemRec where
  word : PyStr
  type : PyStr
  definition : Option PyStr
  derivation : Option PyStr
  appendicies : Option PyStr
  source : Option PyStr
  source_pg : Option PyStr
  mark : Option PyStr
  modified_at : PyStr
deriving DecidableEq, Repr

/-- Row decoder of `import_items` (source lines 72-99). `now` stands for
`datetime.now().isoformat()`, the default for a missing tenth column. -/
def decodeItem (now : PyStr) (row : Row) : Except Reason (Int × ItemRec) :=
  if row.length < 10 then .error .shape
  else if field row 0 = [] then .error .identMissing
  else match parseInt (field row 0) with
    | none => .error .identError
    | some n =>
      if n = 0 then .error .identMissing
      else .ok (n,
        { word := if 1 < row.length then field row 1 else []
          type := if 2 < row.length then field row 2 else "Reference".data
          definition := if 3 < row.length then clean_text (some (field row 3)) else none
          derivation := if 4 < row.length then clean_text (some (field row 4)) else none
          appendicies := if 5 < row.length then clean_text (some (field row 5)) else none
          source := if 6 < row.length then some (field row 6) else none
          source_pg := if 7 < row.length then some (field row 7) else none
          mark := if 8 < row.length then some (field row 8) else none
          modified_at := if 9 < row.length then field row 9 else now })

/-- The columns inserted into `cliches` (source lines 182-189). -/
structure ClicheRec where
  phrase : PyStr
  definition : Option PyStr
deriving DecidableEq, Repr

/-- Row decoder of `import_cliches` (source lines 173-189). -/
def decodeCliche (row : Row) : Except Reason (Int × ClicheRec) :=
  if row.length < 2 then .error .shape
  else if field row 0 = [] then .error .identMissing
  else match parseInt (field row 0) with
    | none => .error .identError
    | some n =>
      if n = 0 then .error .identMissing
      else .ok (n,
        { phrase := if 1 < row.length then field row 1 else []
          definition := if 2 < row.length then clean_text (some (field row 2)) else none })

/-- The columns inserted into `literary_terms` (source lines 294-304). -/
structure TermRec where
  term : PyStr
  type : Option PyStr
  definition : Option PyStr
  examples : Option PyStr
  notes : Option PyStr
deriving DecidableEq, Repr

/-- Row decoder of `import_literary_terms` (source lines 285-304). -/
def decodeTerm (row : Row) : Except Reason (Int × TermRec) :=
  if row.length < 2 then .error .shape
  else if field row 0 = [] then .error .identMissing
  else match parseInt (field row 0) with
    | none => .error .identError
    | some n =>
      if n = 0 then .error .identMissing
      else .ok (n,
        { term := if 1 < row.length then field row 1 else []
          type := none
          definition := if 2 < row.length then clean_text (some (field row 2)) else none
          examples := if 3 < row.length then clean_text (some (field row 3)) else none
          notes := if 4 < row.length then clean_text (some (field row 4)) else none })

/-- Rejection reasons of the names decoder: too few columns; invalid
identity (primary parse raised `ValueError` and the legacy fallback does not
apply -- the path that prints the whole row, source line 230); or identity
missing/zero (the `if not name_id` path, source line 234). -/
inductive NameReason
  | shape
  | identInvalid
  | identMissing
deriving DecidableEq, Repr

/-- The columns inserted into `names` (source lines 249-259). -/
structure NameRec where
  name : PyStr
  type : Option PyStr
  gender : Option PyStr
  description : Option PyStr
  notes : Option PyStr
deriving DecidableEq, Repr

/-- Row decoder of `import_names` (source lines 213-259), including the
legacy-layout fallback: when `int(row[0])` raises `ValueError`, the identity
is taken from `row[2]` provided that field exists and is all digits. -/
def decodeName (row : Row) : Except NameReason (Int × NameRec) :=
  if row.length < 2 then .error .shape
  else
    let idTry : Except NameReason (Option Int) :=
      if field row 0 = [] then .ok none
      else match parseInt (field row 0) with
        | some n => .ok (some n)
        | none =>
          if 2 < row.length ∧ pyIsDigit (field row 2) = true
          then .ok (some (Int.ofNat (digitsToNat (field row 2))))
          else .error .identInvalid
    match idTry with
    | .error r => .error r
    | .ok none => .error .identMissing
    | .ok (some n) =>
      if n = 0 then .error .identMissing
      else .ok (n,
        { name := if 1 < row.length then field row 1 else []
          type := if 2 < row.length then some (field row 2) else none
          gender := if 3 < row.length then some (field row 3) else none
          description := none
          notes := none })

/-- Rejection reasons of the links decoder: too few columns; an `int()`
exception; or a falsy (missing or zero) identity among the three. -/
inductive LinkReason
  | shape
  | exc
  | falsy
deriving DecidableEq, Repr

/-- The columns inserted into `links` (source lines 136-145). -/
structure LinkRec where
  source_item_id : Int
  destination_item_id : Int
  link_type : PyStr
deriving DecidableEq, Repr

/-- Python `int(f) if f else None` with `ValueError` surfaced as `.error`. -/
def pyOptInt (f : PyStr) : Except Unit (Option Int) :=
  if f = [] then .ok none
  else match parseInt f with
    | some n => .ok (some n)
    | none => .error ()

/-- Row decoder of `import_links` (source lines 127-148): all three ids must
be present and nonzero; the link type is the constant string `related`. -/
def decodeLink (row : Row) : Except LinkReason (Int × LinkRec) :=
  if row.length < 3 then .error .shape
  else
    match pyOptInt (field row 0), pyOptInt (field row 1), pyOptInt (field row 2) with
    | .ok (some l), .ok (some s), .ok (some d) =>
      if l ≠ 0 ∧ s ≠ 0 ∧ d ≠ 0 then
        .ok (l, { source_item_id := s, destination_item_id := d, link_type := "related".data })
      else .error .falsy
    | .ok _, .ok _, .ok _ => .error .falsy
    | _, _, _ => .error .exc

/-- Rejection reasons of the sources decoder: too few columns, or no usable
title. -/
inductive SourceReason
  | shape
  | noTitle
deriving DecidableEq, Repr

/-- The columns inserted into `sources` other than the synthetic id
(source lines 343-351): the short-name column is stored as `notes`. -/
structure SourceRec where
  title : PyStr
  author : Option PyStr
  notes : Option PyStr
deriving DecidableEq, Repr

/-- The effective title of a sources row (source line 336):
`row[2] if len(row) > 2 else row[1] if len(row) > 1 else ''`. -/
def titleOf (row : Row) : PyStr :=
  if 2 < row.length then field row 2
  else if 1 < row.length then field row 1
  else []

/-- Row decoder of `import_sources` (source lines 329-341); the identity is
assigned later by the importer's counter. -/
def decodeSource (row : Row) : Except SourceReason SourceRec :=
  if row.length < 2 then .error .shape
  else if titleOf row = [] then .error .noTitle
  else .ok
    { title := titleOf row
      author := if field row 0 ≠ [] then some (field row 0) else none
      notes := if 1 < row.length then some (field row 1) else none }

-- ## Store model and importer state machines

/-- SQLite `INSERT OR IGNORE`: a no-op when the key is already present,
otherwise append the row. -/
def insertOrIgnore {κ α : Type} [DecidableEq κ] (st : List (κ × α)) (k : κ) (v : α) :
    List (κ × α) :=
  if k ∈ st.map Prod.fst then st else st ++ [(k, v)]

/-- First value stored under a key. -/
def lookupKey {κ α : Type} [DecidableEq κ] : List (κ × α) → κ → Option α
  | [], _ => none
  | p :: rest, k => if p.1 = k then some p.2 else lookupKey rest k

/-- Number of stored rows carrying a key. -/
def countKey {κ α : Type} [DecidableEq κ] (st : List (κ × α)) (k : κ) : Nat :=
  st.countP fun p => p.1 = k

/-- Insert a batch of keyed rows with `INSERT OR IGNORE` semantics. -/
def insertAll {κ α : Type} [DecidableEq κ] (st : List (κ × α)) (l : List (κ × α)) :
    List (κ × α) :=
  l.foldl (fun acc p => insertOrIgnore acc p.1 p.2) st

/-- State of `import_items`: the store, the accepted and error counters, and
`ctxPrints`, the number of prints that include row fields (only the
`Row data:` print in the exception handler, source lines 104-105, shows row
fields; it fires only while `errors < 5` after the increment). -/
structure ItemState where
  store : List (Int × ItemRec)
  count : Nat
  errors : Nat
  ctxPrints : Nat
deriving DecidableEq, Repr

/-- One iteration of the `import_items` row loop (source lines 70-105). -/
def itemStep (now : PyStr) (s : ItemState) (row : Row) : ItemState :=
  match decodeItem now row with
  | .ok (n, rec) => { s with store := insertOrIgnore s.store n rec, count := s.count + 1 }
  | .error .identError =>
    { s with errors := s.errors + 1,
             ctxPrints := if s.errors + 1 < 5 then s.ctxPrints + 1 else s.ctxPrints }
  | .error _ => { s with errors := s.errors + 1 }

/-- `import_items` over a whole file. -/
def importItems (now : PyStr) (rows : List Row) : ItemState :=
  rows.foldl (itemStep now) ⟨[], 0, 0, 0⟩

/-- State of `import_links`: store plus accepted/skipped counters. -/
structure LinkState where
  store : List (Int × LinkRec)
  count : Nat
  skipped : Nat
deriving DecidableEq, Repr

/-- One iteration of the `import_links` row loop (source lines 125-151). -/
def linkStep (s : LinkState) (row : Row) : LinkState :=
  match decodeLink row with
  | .ok (n, rec) => { s with store := insertOrIgnore s.store n rec, count := s.count + 1 }
  | .error _ => { s with skipped := s.skipped + 1 }

/-- `import_links` over a whole file. -/
def importLinks (rows : List Row) : LinkState :=
  rows.foldl linkStep ⟨[], 0, 0⟩

/-- State of `import_cliches`. -/
structure ClicheState where
  store : List (Int × ClicheRec)
  count : Nat
  errors : Nat
deriving DecidableEq, Repr

/-- One iteration of the `import_cliches` row loop (source lines 171-193). -/
def clicheStep (s : ClicheState) (row : Row) : ClicheState :=
  match decodeCliche row with
  | .ok (n, rec) => { s with store := insertOrIgnore s.store n rec, count := s.count + 1 }
  | .error _ => { s with errors := s.errors + 1 }

/-- `import_cliches` over a whole file. -/
def importCliches (rows : List Row) : ClicheState :=
  rows.foldl clicheStep ⟨[], 0, 0⟩

/-- State of `import_names`; `ctxPrints` counts prints that include row
fields: the `Skipping row with invalid ID: {row}` print (source line 230)
fires on every fallback-failed identity, with no cap. -/
structure NameState where
  store : List (Int × NameRec)
  count : Nat
  errors : Nat
  ctxPrints : Nat
deriving DecidableEq, Repr

/-- One iteration of the `import_names` row loop (source lines 213-263). -/
def nameStep (s : NameState) (row : Row) : NameState :=
  match decodeName row with
  | .ok (n, rec) => { s with store := insertOrIgnore s.store n rec, count := s.count + 1 }
  | .error .identInvalid =>
    { s with errors := s.errors + 1, ctxPrints := s.ctxPrints + 1 }
  | .error _ => { s with errors := s.errors + 1 }

/-- `import_names` over a whole file. -/
def importNames (rows : List Row) : NameState :=
  rows.foldl nameStep ⟨[], 0, 0, 0⟩

/-- State of `import_literary_terms`. -/
structure TermState where
  store : List (Int × TermRec)
  count : Nat
  errors : Nat
deriving DecidableEq, Repr

/-- One iteration of the `import_literary_terms` row loop (283-308). -/
def termStep (s : TermState) (row : Row) : TermState :=
  match decodeTerm row with
  | .ok (n, rec) => { s with store := insertOrIgnore s.store n rec, count := s.count + 1 }
  | .error _ => { s with errors := s.errors + 1 }

/-- `import_literary_terms` over a whole file. -/
def importTerms (rows : List Row) : TermState :=
  rows.foldl termStep ⟨[], 0, 0⟩

/-- State of `import_sources`: `source_id` is the synthetic key counter,
initialized to 1000 (source line 324) and advanced only on accepted rows. -/
structure SourceState where
  store : List (Nat × SourceRec)
  count : Nat
  errors : Nat
  source_id : Nat
deriving DecidableEq, Repr

/-- One iteration of the `import_sources` row loop (source lines 329-356). -/
def sourceStep (s : SourceState) (row : Row) : SourceState :=
  match decodeSource row with
  | .ok rec =>
    { s with store := insertOrIgnore s.store s.source_id rec,
             count := s.count + 1, source_id := s.source_id + 1 }
  | .error _ => { s with errors := s.errors + 1 }

/-- `import_sources` over a whole file. -/
def importSources (rows : List Row) : SourceState :=
  rows.foldl sourceStep ⟨[], 0, 0, 1000⟩

/-- The accepted (id, record) pairs of an items file in input order. -/
def decodedItems (now : PyStr) (rows : List Row) : List (Int × ItemRec) :=
  rows.filterMap fun r => (decodeItem now r).toOption

/-- The accepted (id, record) pairs of a links file in input order. -/
def decodedLinks (rows : List Row) : List (Int × LinkRec) :=
  rows.filterMap fun r => (decodeLink r).toOption

/-- The accepted (id, record) pairs of a cliches file in input order. -/
def decodedCliches (rows : List Row) : List (Int × ClicheRec) :=
  rows.filterMap fun r => (decodeCliche r).toOption

/-- The accepted (id, record) pairs of a names file in input order. -/
def decodedNames (rows : List Row) : List (Int × NameRec) :=
  rows.filterMap fun r => (decodeName r).toOption

/-- The accepted (id, record) pairs of a literary-terms file in input order. -/
def decodedTerms (rows : List Row) : List (Int × TermRec) :=
  rows.filterMap fun r => (decodeTerm r).toOption

-- ## Decoder predicates used in the claim statements

/-- Identity usability for the item/cliche/term decoders: the first field
parses as a nonzero integer. -/
def idUsableB (row : Row) : Bool :=
  match parseInt (field row 0) with
  | some n => n != 0
  | none => false

/-- Primary-layout success for the names decoder: first field nonempty and
parsing to a nonzero integer. -/
def firstUsableB (row : Row) : Bool :=
  (field row 0 != ([] : PyStr)) && idUsableB row

/-- The legacy fallback applies: first field nonempty but `int()` raises. -/
def fallbackAppliesB (row : Row) : Bool :=
  (field row 0 != ([] : PyStr)) && (parseInt (field row 0)).isNone

/-- The fallback succeeds with a usable identity: a third field exists, is
all digits, and is nonzero. -/
def thirdUsableB (row : Row) : Bool :=
  decide (2 < row.length) && pyIsDigit (field row 2) && (digitsToNat (field row 2) != 0)

-- ## Lemmas about the text normalizer

theorem mem_replaceChar {c a b : Char} {l : PyStr} (h : c ∈ replaceChar a b l) :
    c ∈ l ∨ c = b := by
  rcases List.mem_map.mp h with ⟨x, hx, hfx⟩
  by_cases hxa : x = a
  · right; rw [if_pos hxa] at hfx; exact hfx.symm
  · left; rw [if_neg hxa] at hfx; exact hfx ▸ hx

theorem replaceChar_eq_self {a b : Char} {l : PyStr} (h : a ∉ l) :
    replaceChar a b l = l := by
  induction l with
  | nil => rfl
  | cons x xs ih =>
    simp only [List.mem_cons, not_or] at h
    simp [replaceChar, List.map_cons] at ih ⊢
    constructor
    · intro hxa; exact absurd hxa.symm h.1
    · exact ih h.2

theorem not_mem_replaceChar {a b : Char} {l : PyStr} (hab : a ≠ b) :
    a ∉ replaceChar a b l := by
  intro h
  rcases List.mem_map.mp h with ⟨x, _, hfx⟩
  by_cases hxa : x = a
  · rw [if_pos hxa] at hfx; exact hab hfx.symm
  · rw [if_neg hxa] at hfx; exact hxa hfx

theorem mem_replaceCRLF {c : Char} : ∀ {l : PyStr}, c ∈ replaceCRLF l → c ∈ l ∨ c = '\n'
  | [], h => by simp [replaceCRLF] at h
  | [x], h => by
    rw [replaceCRLF] at h
    exact Or.inl h
  | a :: b :: rest, h => by
    by_cases hab : a = '\r' ∧ b = '\n'
    · rw [replaceCRLF, if_pos hab] at h
      rcases List.mem_cons.mp h with h1 | h2
      · exact Or.inr h1
      · rcases mem_replaceCRLF h2 with h3 | h3
        · exact Or.inl (by simp [h3])
        · exact Or.inr h3
    · rw [replaceCRLF, if_neg hab] at h
      rcases List.mem_cons.mp h with h1 | h2
      · exact Or.inl (by simp [h1])
      · rcases mem_replaceCRLF h2 with h3 | h3
        · exact Or.inl (by simpa using Or.inr (List.mem_cons.mp h3))
        · exact Or.inr h3

theorem replaceCRLF_eq_self : ∀ {l : PyStr}, '\r' ∉ l → replaceCRLF l = l
  | [], _ => rfl
  | [_], _ => rfl
  | a :: b :: rest, h => by
    have ha : a ≠ '\r' := fun hc => h (by simp [hc])
    have hrest : '\r' ∉ b :: rest := fun hc => h (List.mem_cons_of_mem _ hc)
    rw [replaceCRLF, if_neg (fun hc => ha hc.1), replaceCRLF_eq_self hrest]

theorem mem_pyStrip {c : Char} {l : PyStr} (h : c ∈ pyStrip l) : c ∈ l := by
  have h1 : c ∈ List.dropWhile isPySpace l :=
    (List.IsPrefix.sublist (List.rdropWhile_prefix _ _)).subset h
  exact (List.IsSuffix.sublist (List.dropWhile_suffix _)).subset h1

theorem dropWhile_eq_self_of_front {p : Char → Bool} {l m : PyStr}
    (hpre : l <+: m) (hm : List.dropWhile p m = m) : List.dropWhile p l = l := by
  cases l with
  | nil => rfl
  | cons a t =>
    rcases hpre with ⟨s, hs⟩
    have hm2 : List.dropWhile p ((a :: t) ++ s) = (a :: t) ++ s := by
      rw [hs]; exact hm
    have hpa : ¬ p a := by
      have h0 := List.dropWhile_eq_self_iff.mp hm2 (by simp)
      simpa using h0
    rw [List.dropWhile_cons_of_neg hpa]

theorem pyStrip_idem (l : PyStr) : pyStrip (pyStrip l) = pyStrip l := by
  unfold pyStrip
  set m := List.dropWhile isPySpace l with hm
  have hmfix : List.dropWhile isPySpace m = m := List.dropWhile_idempotent _ _
  have hpre : List.rdropWhile isPySpace m <+: m := List.rdropWhile_prefix _ _
  rw [dropWhile_eq_self_of_front hpre hmfix, List.rdropWhile_idempotent]

theorem pyStrip_of_stripped {l : PyStr} (h : ∃ s, l = pyStrip s) : pyStrip l = l := by
  rcases h with ⟨s, hs⟩
  rw [hs, pyStrip_idem]

theorem cleanList_idem (l : PyStr) : cleanList (cleanList l) = cleanList l := by
  set r := cleanList l with hr
  have hstage : ∀ c : Char, c ∈ r → c ∈ replaceChar '¶' '\n' l ∨ c = '\n' ∨ c = '"' := by
    intro c hc
    have h5 := mem_pyStrip hc
    rcases mem_replaceChar h5 with h4 | h4
    · rcases mem_replaceChar h4 with h3 | h3
      · rcases mem_replaceCRLF h3 with h2 | h2
        · rcases mem_replaceChar h2 with h1 | h1
          · exact Or.inl h1
          · exact Or.inr (Or.inl h1)
        · exact Or.inr (Or.inl h2)
      · exact Or.inr (Or.inl h3)
    · exact Or.inr (Or.inr h4)
  have hpil : '¶' ∉ r := by
    intro hc
    rcases hstage '¶' hc with h | h | h
    · exact not_mem_replaceChar (by decide) h
    · exact absurd h (by decide)
    · exact absurd h (by decide)
  have hvt : '\x0b' ∉ r := by
    intro hc
    have h5 := mem_pyStrip hc
    rcases mem_replaceChar h5 with h4 | h4
    · rcases mem_replaceChar h4 with h3 | h3
      · rcases mem_replaceCRLF h3 with h2 | h2
        · exact not_mem_replaceChar (by decide) h2
        · exact absurd h2 (by decide)
      · exact absurd h3 (by decide)
    · exact absurd h4 (by decide)
  have hcr : '\r' ∉ r := by
    intro hc
    have h5 := mem_pyStrip hc
    rcases mem_replaceChar h5 with h4 | h4
    · exact not_mem_replaceChar (by decide) h4
    · exact absurd h4 (by decide)
  have hrep : '�' ∉ r := by
    intro hc
    exact not_mem_replaceChar (by decide) (mem_pyStrip hc)
  unfold cleanList
  rw [replaceChar_eq_self hpil, replaceChar_eq_self hvt, replaceCRLF_eq_self hcr,
    replaceChar_eq_self hcr, replaceChar_eq_self hrep]
  exact pyStrip_of_stripped ⟨_, rfl⟩

-- ## Store and fold lemmas

theorem foldl_invariant {σ ρ : Type} (P : σ → Prop) (step : σ → ρ → σ)
    (hstep : ∀ s r, P s → P (step s r)) :
    ∀ (rows : List ρ) (s : σ), P s → P (rows.foldl step s)
  | [], _, h => h
  | r :: rest, s, h => foldl_invariant P step hstep rest (step s r) (hstep s r h)

theorem keys_insertOrIgnore_nodup {κ α : Type} [DecidableEq κ] {st : List (κ × α)}
    (h : (st.map Prod.fst).Nodup) (k : κ) (v : α) :
    ((insertOrIgnore st k v).map Prod.fst).Nodup := by
  unfold insertOrIgnore
  split
  · exact h
  · rename_i hk
    rw [List.map_append]
    simp [List.nodup_append, h, hk]

theorem insertAll_keys_nodup {κ α : Type} [DecidableEq κ] :
    ∀ (l : List (κ × α)) (st : List (κ × α)),
      (st.map Prod.fst).Nodup → ((insertAll st l).map Prod.fst).Nodup
  | [], _, h => h
  | p :: rest, st, h =>
    insertAll_keys_nodup rest (insertOrIgnore st p.1 p.2) (keys_insertOrIgnore_nodup h p.1 p.2)

theorem lookupKey_isSome_iff {κ α : Type} [DecidableEq κ] :
    ∀ (st : List (κ × α)) (k : κ), (lookupKey st k).isSome = true ↔ k ∈ st.map Prod.fst
  | [], k => by simp [lookupKey]
  | p :: rest, k => by
    by_cases hk : p.1 = k
    · simp [lookupKey, hk]
    · simp [lookupKey, hk, lookupKey_isSome_iff rest k, Ne.symm hk]

theorem lookupKey_append {κ α : Type} [DecidableEq κ] :
    ∀ (l₁ l₂ : List (κ × α)) (k : κ),
      lookupKey (l₁ ++ l₂) k =
        match lookupKey l₁ k with
        | some w => some w
        | none => lookupKey l₂ k
  | [], _, _ => by simp [lookupKey]
  | p :: rest, l₂, k => by
    by_cases hk : p.1 = k
    · simp [lookupKey, hk]
    · simp [lookupKey, hk, lookupKey_append rest l₂ k]

theorem lookupKey_insertOrIgnore {κ α : Type} [DecidableEq κ]
    (st : List (κ × α)) (k : κ) (v : α) (i : κ) :
    lookupKey (insertOrIgnore st k v) i =
      match lookupKey st i with
      | some w => some w
      | none => if i = k then some v else none := by
  unfold insertOrIgnore
  split
  · rename_i hk
    cases hli : lookupKey st i with
    | some w => simp
    | none =>
      by_cases hik : i = k
      · subst hik
        have := (lookupKey_isSome_iff st i).mpr hk
        rw [hli] at this
        simp at this
      · simp [hik]
  · rw [lookupKey_append]
    cases hli : lookupKey st i with
    | some w => simp
    | none =>
      by_cases hik : i = k
      · simp [lookupKey, hik]
      · have hki : ¬ k = i := fun h => hik h.symm
        simp [lookupKey, hik, hki]

theorem lookupKey_insertAll {κ α : Type} [DecidableEq κ] :
    ∀ (l : List (κ × α)) (st : List (κ × α)) (i : κ),
      lookupKey (insertAll st l) i =
        match lookupKey st i with
        | some w => some w
        | none => lookupKey l i
  | [], st, i => by cases hli : lookupKey st i <;> simp [insertAll, lookupKey, hli]
  | p :: rest, st, i => by
    have hstep : insertAll st (p :: rest) = insertAll (insertOrIgnore st p.1 p.2) rest := rfl
    rw [hstep, lookupKey_insertAll rest (insertOrIgnore st p.1 p.2) i,
      lookupKey_insertOrIgnore st p.1 p.2 i]
    cases hli : lookupKey st i with
    | some w => simp
    | none =>
      by_cases hip : i = p.1
      · simp [lookupKey, hip]
      · have hpi : ¬ p.1 = i := fun h => hip h.symm
        simp [lookupKey, hip, hpi]

theorem countKey_eq_one_of_nodup {κ α : Type} [DecidableEq κ] :
    ∀ {st : List (κ × α)} {k : κ},
      (st.map Prod.fst).Nodup → k ∈ st.map Prod.fst → countKey st k = 1
  | [], k, _, hmem => by simp at hmem
  | p :: rest, k, hnd, hmem => by
    rw [List.map_cons, List.nodup_cons] at hnd
    rw [List.map_cons, List.mem_cons] at hmem
    rw [countKey, List.countP_cons]
    rcases hmem with hk | hk
    · have hz : rest.countP (fun q => decide (q.1 = k)) = 0 := by
        rw [List.countP_eq_zero]
        intro q hq
        simp only [decide_eq_true_eq]
        intro hqk
        exact hnd.1 (hk ▸ (hqk ▸ List.mem_map_of_mem Prod.fst hq))
      have hk2 : p.1 = k := hk.symm
      simp [hz, hk2]
    · have hpk : ¬ p.1 = k := fun h => hnd.1 (h ▸ hk)
      have := countKey_eq_one_of_nodup hnd.2 hk
      rw [countKey] at this
      simp [this, hpk]

-- ## Importer fold characterizations

theorem importItems_fold (now : PyStr) :
    ∀ (rows : List Row) (s : ItemState),
      (rows.foldl (itemStep now) s).store = insertAll s.store (decodedItems now rows) ∧
      (rows.foldl (itemStep now) s).count = s.count + (decodedItems now rows).length
  | [], s => ⟨rfl, by simp [decodedItems, insertAll]⟩
  | r :: rest, s => by
    have ih := importItems_fold now rest (itemStep now s r)
    rw [List.foldl_cons]
    cases hd : decodeItem now r with
    | ok p =>
      obtain ⟨n, rec⟩ := p
      have hstep : itemStep now s r =
          { s with store := insertOrIgnore s.store n rec, count := s.count + 1 } := by
        simp [itemStep, hd]
      constructor
      · rw [ih.1, hstep]
        simp [decodedItems, List.filterMap_cons, hd, Except.toOption, insertAll]
      · rw [ih.2, hstep]
        simp [decodedItems, List.filterMap_cons, hd, Except.toOption]
        omega
    | error e =>
      have hstore : (itemStep now s r).store = s.store := by
        cases e <;> simp [itemStep, hd]
      have hcount : (itemStep now s r).count = s.count := by
        cases e <;> simp [itemStep, hd]
      constructor
      · rw [ih.1, hstore]
        simp [decodedItems, List.filterMap_cons, hd, Except.toOption]
      · rw [ih.2, hcount]
        simp [decodedItems, List.filterMap_cons, hd, Except.toOption]

theorem importLinks_fold :
    ∀ (rows : List Row) (s : LinkState),
      (rows.foldl linkStep s).store = insertAll s.store (decodedLinks rows) ∧
      (rows.foldl linkStep s).count = s.count + (decodedLinks rows).length
  | [], s => ⟨rfl, by simp [decodedLinks, insertAll]⟩
  | r :: rest, s => by
    have ih := importLinks_fold rest (linkStep s r)
    rw [List.foldl_cons]
    cases hd : decodeLink r with
    | ok p =>
      obtain ⟨n, rec⟩ := p
      have hstep : linkStep s r =
          { s with store := insertOrIgnore s.store n rec, count := s.count + 1 } := by
        simp [linkStep, hd]
      constructor
      · rw [ih.1, hstep]
        simp [decodedLinks, List.filterMap_cons, hd, Except.toOption, insertAll]
      · rw [ih.2, hstep]
        simp [decodedLinks, List.filterMap_cons, hd, Except.toOption]
        omega
    | error e =>
      have hstore : (linkStep s r).store = s.store := by
        cases e <;> simp [linkStep, hd]
      have hcount : (linkStep s r).count = s.count := by
        cases e <;> simp [linkStep, hd]
      constructor
      · rw [ih.1, hstore]
        simp [decodedLinks, List.filterMap_cons, hd, Except.toOption]
      · rw [ih.2, hcount]
        simp [decodedLinks, List.filterMap_cons, hd, Except.toOption]

theorem importCliches_fold :
    ∀ (rows : List Row) (s : ClicheState),
      (rows.foldl clicheStep s).store = insertAll s.store (decodedCliches rows) ∧
      (rows.foldl clicheStep s).count = s.count + (decodedCliches rows).length
  | [], s => ⟨rfl, by simp [decodedCliches, insertAll]⟩
  | r :: rest, s => by
    have ih := importCliches_fold rest (clicheStep s r)
    rw [List.foldl_cons]
    cases hd : decodeCliche r with
    | ok p =>
      obtain ⟨n, rec⟩ := p
      have hstep : clicheStep s r =
          { s with store := insertOrIgnore s.store n rec, count := s.count + 1 } := by
        simp [clicheStep, hd]
      constructor
      · rw [ih.1, hstep]
        simp [decodedCliches, List.filterMap_cons, hd, Except.toOption, insertAll]
      · rw [ih.2, hstep]
        simp [decodedCliches, List.filterMap_cons, hd, Except.toOption]
        omega
    | error e =>
      have hstore : (clicheStep s r).store = s.store := by
        cases e <;> simp [clicheStep, hd]
      have hcount : (clicheStep s r).count = s.count := by
        cases e <;> simp [clicheStep, hd]
      constructor
      · rw [ih.1, hstore]
        simp [decodedCliches, List.filterMap_cons, hd, Except.toOption]
      · rw [ih.2, hcount]
        simp [decodedCliches, List.filterMap_cons, hd, Except.toOption]

theorem importNames_fold :
    ∀ (rows : List Row) (s : NameState),
      (rows.foldl nameStep s).store = insertAll s.store (decodedNames rows) ∧
      (rows.foldl nameStep s).count = s.count + (decodedNames rows).length
  | [], s => ⟨rfl, by simp [decodedNames, insertAll]⟩
  | r :: rest, s => by
    have ih := importNames_fold rest (nameStep s r)
    rw [List.foldl_cons]
    cases hd : decodeName r with
    | ok p =>
      obtain ⟨n, rec⟩ := p
      have hstep : nameStep s r =
          { s with store := insertOrIgnore s.store n rec, count := s.count + 1 } := by
        simp [nameStep, hd]
      constructor
      · rw [ih.1, hstep]
        simp [decodedNames, List.filterMap_cons, hd, Except.toOption, insertAll]
      · rw [ih.2, hstep]
        simp [decodedNames, List.filterMap_cons, hd, Except.toOption]
        omega
    | error e =>
      have hstore : (nameStep s r).store = s.store := by
        cases e <;> simp [nameStep, hd]
      have hcount : (nameStep s r).count = s.count := by
        cases e <;> simp [nameStep, hd]
      constructor
      · rw [ih.1, hstore]
        simp [decodedNames, List.filterMap_cons, hd, Except.toOption]
      · rw [ih.2, hcount]
        simp [decodedNames, List.filterMap_cons, hd, Except.toOption]

theorem importTerms_fold :
    ∀ (rows : List Row) (s : TermState),
      (rows.foldl termStep s).store = insertAll s.store (decodedTerms rows) ∧
      (rows.foldl termStep s).count = s.count + (decodedTerms rows).length
  | [], s => ⟨rfl, by simp [decodedTerms, insertAll]⟩
  | r :: rest, s => by
    have ih := importTerms_fold rest (termStep s r)
    rw [List.foldl_cons]
    cases hd : decodeTerm r with
    | ok p =>
      obtain ⟨n, rec⟩ := p
      have hstep : termStep s r =
          { s with store := insertOrIgnore s.store n rec, count := s.count + 1 } := by
        simp [termStep, hd]
      constructor
      · rw [ih.1, hstep]
        simp [decodedTerms, List.filterMap_cons, hd, Except.toOption, insertAll]
      · rw [ih.2, hstep]
        simp [decodedTerms, List.filterMap_cons, hd, Except.toOption]
        omega
    | error e =>
      have hstore : (termStep s r).store = s.store := by
        cases e <;> simp [termStep, hd]
      have hcount : (termStep s r).count = s.count := by
        cases e <;> simp [termStep, hd]
      constructor
      · rw [ih.1, hstore]
        simp [decodedTerms, List.filterMap_cons, hd, Except.toOption]
      · rw [ih.2, hcount]
        simp [decodedTerms, List.filterMap_cons, hd, Except.toOption]

theorem importNames_ctx_fold :
    ∀ (rows : List Row) (s : NameState),
      (rows.foldl nameStep s).ctxPrints =
        s.ctxPrints + rows.countP fun r => decide (decodeName r = .error .identInvalid)
  | [], s => by simp
  | r :: rest, s => by
    rw [List.foldl_cons, importNames_ctx_fold rest (nameStep s r), List.countP_cons]
    cases hd : decodeName r with
    | ok p =>
      have hctx : (nameStep s r).ctxPrints = s.ctxPrints := by
        obtain ⟨n, rec⟩ := p
        simp [nameStep, hd]
      simp [hctx, hd]
    | error e =>
      cases e with
      | identInvalid =>
        have hctx : (nameStep s r).ctxPrints = s.ctxPrints + 1 := by simp [nameStep, hd]
        simp [hctx, hd]
        omega
      | shape =>
        have hctx : (nameStep s r).ctxPrints = s.ctxPrints := by simp [nameStep, hd]
        simp [hctx, hd]
      | identMissing =>
        have hctx : (nameStep s r).ctxPrints = s.ctxPrints := by simp [nameStep, hd]
        simp [hctx, hd]

theorem importItems_ctx_le (now : PyStr) (rows : List Row) :
    (importItems now rows).ctxPrints ≤ 4 := by
  have h := foldl_invariant
    (fun s : ItemState => s.ctxPrints ≤ s.errors ∧ s.ctxPrints ≤ 4) (itemStep now)
    (by
      intro s r hs
      cases hd : decodeItem now r with
      | ok p =>
        obtain ⟨n, rec⟩ := p
        have h1 : (itemStep now s r).ctxPrints = s.ctxPrints := by simp [itemStep, hd]
        have h2 : (itemStep now s r).errors = s.errors := by simp [itemStep, hd]
        exact ⟨h1 ▸ h2 ▸ hs.1, h1 ▸ hs.2⟩
      | error e =>
        cases e with
        | identError =>
          have h1 : (itemStep now s r).ctxPrints =
              if s.errors + 1 < 5 then s.ctxPrints + 1 else s.ctxPrints := by
            simp [itemStep, hd]
          have h2 : (itemStep now s r).errors = s.errors + 1 := by simp [itemStep, hd]
          rw [h1, h2]
          constructor
          · split <;> omega
          · split <;> omega
        | shape =>
          have h1 : (itemStep now s r).ctxPrints = s.ctxPrints := by simp [itemStep, hd]
          have h2 : (itemStep now s r).errors = s.errors + 1 := by simp [itemStep, hd]
          rw [h1, h2]
          exact ⟨by omega, hs.2⟩
        | identMissing =>
          have h1 : (itemStep now s r).ctxPrints = s.ctxPrints := by simp [itemStep, hd]
          have h2 : (itemStep now s r).errors = s.errors + 1 := by simp [itemStep, hd]
          rw [h1, h2]
          exact ⟨by omega, hs.2⟩)
    rows ⟨[], 0, 0, 0⟩ ⟨by decide, by decide⟩
  exact h.2

theorem importSources_counts :
    ∀ (rows : List Row) (s : SourceState),
      (rows.foldl sourceStep s).source_id =
        s.source_id + rows.countP (fun r => (decodeSource r).isOk) ∧
      (rows.foldl sourceStep s).count =
        s.count + rows.countP (fun r => (decodeSource r).isOk)
  | [], s => by simp
  | r :: rest, s => by
    have ih := importSources_counts rest (sourceStep s r)
    rw [List.foldl_cons, List.countP_cons]
    cases hd : decodeSource r with
    | ok rec =>
      have h1 : (sourceStep s r).source_id = s.source_id + 1 := by simp [sourceStep, hd]
      have h2 : (sourceStep s r).count = s.count + 1 := by simp [sourceStep, hd]
      refine ⟨?_, ?_⟩
      · rw [ih.1, h1]; simp [hd, Except.isOk, Except.toBool]; omega
      · rw [ih.2, h2]; simp [hd, Except.isOk, Except.toBool]; omega
    | error e =>
      have h1 : (sourceStep s r).source_id = s.source_id := by simp [sourceStep, hd]
      have h2 : (sourceStep s r).count = s.count := by simp [sourceStep, hd]
      refine ⟨?_, ?_⟩
      · rw [ih.1, h1]; simp [hd, Except.isOk, Except.toBool]
      · rw [ih.2, h2]; simp [hd, Except.isOk, Except.toBool]

theorem decodeSource_ok_of {row : Row} (hlen : 2 ≤ row.length) (ht : titleOf row ≠ []) :
    ∃ rec, decodeSource row = .ok rec := by
  rw [decodeSource, if_neg (by omega), if_neg ht]
  exact ⟨_, rfl⟩

theorem importSources_all_accepted :
    ∀ (rows : List Row) (s : SourceState),
      (∀ r ∈ rows, 2 ≤ r.length ∧ titleOf r ≠ []) →
      (∀ k ∈ s.store.map Prod.fst, k < s.source_id) →
      (rows.foldl sourceStep s).store.map Prod.fst =
        s.store.map Prod.fst ++ List.range' s.source_id rows.length
  | [], s, _, _ => by simp
  | r :: rest, s, hrows, hfresh => by
    obtain ⟨rec, hd⟩ := decodeSource_ok_of (hrows r (by simp)).1 (hrows r (by simp)).2
    have hnotmem : s.source_id ∉ s.store.map Prod.fst := fun hmem =>
      absurd (hfresh _ hmem) (by omega)
    have hstore : (sourceStep s r).store = s.store ++ [(s.source_id, rec)] := by
      simp [sourceStep, hd, insertOrIgnore, hnotmem]
    have hsid : (sourceStep s r).source_id = s.source_id + 1 := by simp [sourceStep, hd]
    have ih := importSources_all_accepted rest (sourceStep s r)
      (fun q hq => hrows q (List.mem_cons_of_mem r hq))
      (by
        intro k hk
        rw [hstore] at hk
        rw [hsid]
        rw [List.map_append] at hk
        rcases List.mem_append.mp hk with h | h
        · exact Nat.lt_succ_of_lt (hfresh k h)
        · simp at h; omega)
    rw [List.foldl_cons, ih, hstore, hsid, List.map_append]
    simp [List.range']

-- ## Decoder-level lemmas

theorem parseInt_nil : parseInt [] = none := by decide

theorem decodeItem_isOk_iff {now : PyStr} {row : Row} (hlen : 10 ≤ row.length) :
    (decodeItem now row).isOk = true ↔ idUsableB row = true := by
  rw [decodeItem, if_neg (by omega)]
  unfold idUsableB
  by_cases h0 : field row 0 = []
  · rw [if_pos h0, h0, parseInt_nil]
    simp [Except.isOk, Except.toBool]
  · rw [if_neg h0]
    cases hp : parseInt (field row 0) with
    | none => simp [Except.isOk, Except.toBool]
    | some n =>
      by_cases hn : n = 0
      · simp [hn, Except.isOk, Except.toBool]
      · simp [hn, Except.isOk, Except.toBool]

theorem decodeCliche_isOk_iff {row : Row} (hlen : 2 ≤ row.length) :
    (decodeCliche row).isOk = true ↔ idUsableB row = true := by
  rw [decodeCliche, if_neg (by omega)]
  unfold idUsableB
  by_cases h0 : field row 0 = []
  · rw [if_pos h0, h0, parseInt_nil]
    simp [Except.isOk, Except.toBool]
  · rw [if_neg h0]
    cases hp : parseInt (field row 0) with
    | none => simp [Except.isOk, Except.toBool]
    | some n =>
      by_cases hn : n = 0
      · simp [hn, Except.isOk, Except.toBool]
      · simp [hn, Except.isOk, Except.toBool]

theorem decodeTerm_isOk_iff {row : Row} (hlen : 2 ≤ row.length) :
    (decodeTerm row).isOk = true ↔ idUsableB row = true := by
  rw [decodeTerm, if_neg (by omega)]
  unfold idUsableB
  by_cases h0 : field row 0 = []
  · rw [if_pos h0, h0, parseInt_nil]
    simp [Except.isOk, Except.toBool]
  · rw [if_neg h0]
    cases hp : parseInt (field row 0) with
    | none => simp [Except.isOk, Except.toBool]
    | some n =>
      by_cases hn : n = 0
      · simp [hn, Except.isOk, Except.toBool]
      · simp [hn, Except.isOk, Except.toBool]

theorem decodeName_isOk_iff {row : Row} (hlen : 2 ≤ row.length) :
    (decodeName row).isOk = true ↔
      (firstUsableB row || (fallbackAppliesB row && thirdUsableB row)) = true := by
  rw [decodeName, if_neg (by omega)]
  unfold firstUsableB fallbackAppliesB thirdUsableB idUsableB
  by_cases h0 : field row 0 = []
  · rw [h0, parseInt_nil]
    simp [Except.isOk, Except.toBool]
  · cases hp : parseInt (field row 0) with
    | some n =>
      by_cases hn : n = 0
      · subst hn
        simp [h0, Except.isOk, Except.toBool]
      · simp [h0, hn, Except.isOk, Except.toBool]
    | none =>
      by_cases hf : 2 < row.length ∧ pyIsDigit (field row 2) = true
      · by_cases hz : digitsToNat (field row 2) = 0
        · simp [h0, hf, hf.1, hf.2, hz, Except.isOk, Except.toBool]
        · simp [h0, hf, hf.1, hf.2, hz, Except.isOk, Except.toBool]
      · have hor := not_and_or.mp hf
        simp only [Bool.not_eq_true] at hor
        rcases hor with hf2 | hf2 <;>
          simp [h0, hf, hf2, Except.isOk, Except.toBool]

theorem decodeItem_not_shape {now : PyStr} {row : Row} (h : 10 ≤ row.length) :
    decodeItem now row ≠ .error .shape := by
  rw [decodeItem, if_neg (by omega)]
  by_cases h0 : field row 0 = []
  · rw [if_pos h0]; simp
  · rw [if_neg h0]
    cases hp : parseInt (field row 0) with
    | none => simp
    | some n => by_cases hn : n = 0 <;> simp [hn]

theorem decodeCliche_not_shape {row : Row} (h : 2 ≤ row.length) :
    decodeCliche row ≠ .error .shape := by
  rw [decodeCliche, if_neg (by omega)]
  by_cases h0 : field row 0 = []
  · rw [if_pos h0]; simp
  · rw [if_neg h0]
    cases hp : parseInt (field row 0) with
    | none => simp
    | some n => by_cases hn : n = 0 <;> simp [hn]

theorem decodeTerm_not_shape {row : Row} (h : 2 ≤ row.length) :
    decodeTerm row ≠ .error .shape := by
  rw [decodeTerm, if_neg (by omega)]
  by_cases h0 : field row 0 = []
  · rw [if_pos h0]; simp
  · rw [if_neg h0]
    cases hp : parseInt (field row 0) with
    | none => simp
    | some n => by_cases hn : n = 0 <;> simp [hn]

theorem decodeName_not_shape {row : Row} (h : 2 ≤ row.length) :
    decodeName row ≠ .error .shape := by
  rw [decodeName, if_neg (by omega)]
  by_cases h0 : field row 0 = []
  · simp [h0]
  · cases hp : parseInt (field row 0) with
    | some n => by_cases hn : n = 0 <;> simp [h0, hn]
    | none =>
      by_cases hf : 2 < row.length ∧ pyIsDigit (field row 2) = true
      · by_cases hz : digitsToNat (field row 2) = 0 <;> simp [h0, hf, hz]
      · simp [h0, hf]

theorem decodeLink_not_shape {row : Row} (h : 3 ≤ row.length) :
    decodeLink row ≠ .error .shape := by
  rw [decodeLink, if_neg (by omega)]
  rcases h0 : pyOptInt (field row 0) with e0 | o0 <;>
    rcases h1 : pyOptInt (field row 1) with e1 | o1 <;>
      rcases h2 : pyOptInt (field row 2) with e2 | o2 <;>
        (try cases o0) <;> (try cases o1) <;> (try cases o2) <;>
          intro hc <;> (try split at hc) <;> (try split at hc) <;> simp_all

theorem decodeSource_not_shape {row : Row} (h : 2 ≤ row.length) :
    decodeSource row ≠ .error .shape := by
  rw [decodeSource, if_neg (by omega)]
  by_cases ht : titleOf row = [] <;> simp [ht]

theorem itemStep_error {now : PyStr} {s : ItemState} {row : Row} {e : Reason}
    (hd : decodeItem now row = .error e) :
    (itemStep now s row).store = s.store ∧ (itemStep now s row).count = s.count ∧
      (itemStep now s row).errors = s.errors + 1 := by
  cases e <;> simp [itemStep, hd]

theorem clicheStep_error {s : ClicheState} {row : Row} {e : Reason}
    (hd : decodeCliche row = .error e) :
    (clicheStep s row).store = s.store ∧ (clicheStep s row).count = s.count ∧
      (clicheStep s row).errors = s.errors + 1 := by
  cases e <;> simp [clicheStep, hd]

theorem termStep_error {s : TermState} {row : Row} {e : Reason}
    (hd : decodeTerm row = .error e) :
    (termStep s row).store = s.store ∧ (termStep s row).count = s.count ∧
      (termStep s row).errors = s.errors + 1 := by
  cases e <;> simp [termStep, hd]

theorem nameStep_error {s : NameState} {row : Row} {e : NameReason}
    (hd : decodeName row = .error e) :
    (nameStep s row).store = s.store ∧ (nameStep s row).count = s.count ∧
      (nameStep s row).errors = s.errors + 1 := by
  cases e <;> simp [nameStep, hd]

theorem linkStep_error {s : LinkState} {row : Row} {e : LinkReason}
    (hd : decodeLink row = .error e) :
    (linkStep s row).store = s.store ∧ (linkStep s row).count = s.count ∧
      (linkStep s row).skipped = s.skipped + 1 := by
  cases e <;> simp [linkStep, hd]

-- ## Claim theorems

/-- C5: the Text Normalizer `clean_text` is a pure total function (it is a
Lean function) and is idempotent: for every optional text input,
normalizing twice gives the same result as normalizing once; in particular
an already-normalized string is returned unchanged. -/
theorem c5_normalize_idempotent (t : Option PyStr) :
    clean_text (clean_text t) = clean_text t := by
  match t with
  | none => rfl
  | some l =>
    by_cases hl : l = []
    · simp [clean_text, hl]
    · by_cases hr : cleanList l = []
      · simp [clean_text, hl, hr]
      · simp [clean_text, hl, hr, cleanList_idem]

/-- C6: the Text Normalizer never returns an empty string: its result is
the absent marker (`none`) or a nonempty string, and an input that is empty
or becomes empty after cleaning and trimming yields the absent marker. -/
theorem c6_normalize_never_empty :
    (∀ l s, clean_text (some l) = some s → s ≠ []) ∧
    clean_text none = none ∧
    (∀ l : PyStr, l = [] ∨ cleanList l = [] → clean_text (some l) = none) := by
  refine ⟨?_, rfl, ?_⟩
  · intro l s h
    by_cases hl : l = []
    · simp [clean_text, hl] at h
    · by_cases hr : cleanList l = []
      · simp [clean_text, hl, hr] at h
      · simp [clean_text, hl, hr] at h
        intro hs
        exact hr (h.trans hs)
  · intro l h
    by_cases hl : l = []
    · simp [clean_text, hl]
    · rcases h with h | h
      · exact absurd h hl
      · simp [clean_text, hl, h]

/-- Witness for C6 at a concrete input: a one-space string trims to empty
and yields the absent marker. -/
theorem c6_normalize_never_empty_witness : clean_text (some [' ']) = none :=
  c6_normalize_never_empty.2.2 [' '] (Or.inr (by decide))

/-- C7: for every entity kind, a row with one fewer field than that kind's
minimum (10 for Item, 3 for Link, 2 for the others) is rejected as a shape
rejection with no insertion, and a row with exactly the minimum passes the
shape check and proceeds to identity (or, for Source, title) validation. -/
theorem c7_min_field_counts (now : PyStr) (row : Row) :
    (row.length = 9 → decodeItem now row = .error .shape) ∧
    (row.length = 10 → decodeItem now row ≠ .error .shape) ∧
    (row.length = 2 → decodeLink row = .error .shape) ∧
    (row.length = 3 → decodeLink row ≠ .error .shape) ∧
    (row.length = 1 →
      decodeCliche row = .error .shape ∧ decodeName row = .error .shape ∧
        decodeTerm row = .error .shape ∧ decodeSource row = .error .shape) ∧
    (row.length = 2 →
      decodeCliche row ≠ .error .shape ∧ decodeName row ≠ .error .shape ∧
        decodeTerm row ≠ .error .shape ∧ decodeSource row ≠ .error .shape) ∧
    (∀ s : ItemState, decodeItem now row = .error .shape →
      (itemStep now s row).store = s.store) ∧
    (∀ s : LinkState, decodeLink row = .error .shape →
      (linkStep s row).store = s.store) := by
  refine ⟨?_, ?_, ?_, ?_, ?_, ?_, ?_, ?_⟩
  · intro h; rw [decodeItem, if_pos (by omega)]
  · intro h; exact decodeItem_not_shape (by omega)
  · intro h; rw [decodeLink, if_pos (by omega)]
  · intro h; exact decodeLink_not_shape (by omega)
  · intro h
    refine ⟨?_, ?_, ?_, ?_⟩
    · rw [decodeCliche, if_pos (by omega)]
    · rw [decodeName, if_pos (by omega)]
    · rw [decodeTerm, if_pos (by omega)]
    · rw [decodeSource, if_pos (by omega)]
  · intro h
    exact ⟨decodeCliche_not_shape (by omega), decodeName_not_shape (by omega),
      decodeTerm_not_shape (by omega), decodeSource_not_shape (by omega)⟩
  · intro s hd; exact (itemStep_error hd).1
  · intro s hd; exact (linkStep_error hd).1

/-- Witness for C7 at concrete rows of each boundary length. -/
theorem c7_min_field_counts_witness :
    decodeItem [] (List.replicate 9 []) = .error .shape ∧
    decodeItem [] (List.replicate 10 []) ≠ .error .shape ∧
    decodeLink (List.replicate 2 []) = .error .shape ∧
    decodeLink (List.replicate 3 []) ≠ .error .shape ∧
    decodeCliche [[]] = .error .shape ∧
    decodeName [[]] = .error .shape ∧
    decodeTerm [[]] = .error .shape ∧
    decodeSource [[]] = .error .shape ∧
    decodeCliche [[], []] ≠ .error .shape ∧
    decodeName [[], []] ≠ .error .shape ∧
    decodeTerm [[], []] ≠ .error .shape ∧
    decodeSource [[], []] ≠ .error .shape ∧
    (itemStep [] ⟨[], 0, 0, 0⟩ (List.replicate 9 [])).store = ([] : List (Int × ItemRec)) ∧
    (linkStep ⟨[], 0, 0⟩ (List.replicate 2 [])).store = ([] : List (Int × LinkRec)) := by
  have h9 := c7_min_field_counts [] (List.replicate 9 [])
  have h10 := c7_min_field_counts [] (List.replicate 10 [])
  have h2 := c7_min_field_counts [] (List.replicate 2 [])
  have h3 := c7_min_field_counts [] (List.replicate 3 [])
  have h1 := c7_min_field_counts [] [[]]
  have h22 := c7_min_field_counts [] [[], []]
  obtain ⟨q1, q2, q3, q4⟩ := h1.2.2.2.2.1 (by decide)
  obtain ⟨w1, w2, w3, w4⟩ := h22.2.2.2.2.2.1 (by decide)
  exact ⟨h9.1 (by decide), h10.2.1 (by decide), h2.2.2.1 (by decide),
    h3.2.2.2.1 (by decide), q1, q2, q3, q4, w1, w2, w3, w4,
    h9.2.2.2.2.2.2.1 ⟨[], 0, 0, 0⟩ (h9.1 (by decide)),
    h2.2.2.2.2.2.2.2 ⟨[], 0, 0⟩ (h2.2.2.1 (by decide))⟩

theorem decodeItem_eq_of_len {now : PyStr} {row : Row} (hlen : 10 ≤ row.length) :
    decodeItem now row =
      (if field row 0 = [] then .error .identMissing
       else match parseInt (field row 0) with
         | none => .error .identError
         | some n =>
           if n = 0 then .error .identMissing
           else .ok (n,
             { word := field row 1
               type := field row 2
               definition := clean_text (some (field row 3))
               derivation := clean_text (some (field row 4))
               appendicies := clean_text (some (field row 5))
               source := some (field row 6)
               source_pg := some (field row 7)
               mark := some (field row 8)
               modified_at := field row 9 })) := by
  rw [decodeItem, if_neg (by omega)]
  by_cases h0 : field row 0 = []
  · rw [if_pos h0, if_pos h0]
  · rw [if_neg h0, if_neg h0]
    cases hp : parseInt (field row 0) with
    | none => rfl
    | some n =>
      by_cases hn : n = 0
      · simp [hn]
      · simp [hn, show (1:Nat) < row.length by omega, show (2:Nat) < row.length by omega,
          show (3:Nat) < row.length by omega, show (4:Nat) < row.length by omega,
          show (5:Nat) < row.length by omega, show (6:Nat) < row.length by omega,
          show (7:Nat) < row.length by omega, show (8:Nat) < row.length by omega,
          show (9:Nat) < row.length by omega]

/-- C2: a Name row with at least two fields is rejected exactly when both
the first field and -- where the `ValueError` fallback applies -- the third
field fail to yield a usable identity; a failed primary parse falls through
to the legacy layout with the identity in the third field. -/
theorem c2_name_fallback_reject_iff (row : Row) (hlen : 2 ≤ row.length) :
    (decodeName row).isOk = false ↔
      (firstUsableB row = false ∧
        (fallbackAppliesB row && thirdUsableB row) = false) := by
  have h := decodeName_isOk_iff hlen
  constructor
  · intro hf
    have hnot : ¬ (firstUsableB row || (fallbackAppliesB row && thirdUsableB row)) = true := by
      intro hx
      rw [← h, hf] at hx
      cases hx
    rw [Bool.or_eq_true, not_or] at hnot
    exact ⟨Bool.not_eq_true _ |>.mp hnot.1, Bool.not_eq_true _ |>.mp hnot.2⟩
  · rintro ⟨h1, h2⟩
    cases hok : (decodeName row).isOk
    · rfl
    · have hx := h.mp hok
      rw [Bool.or_eq_true] at hx
      rcases hx with hx | hx
      · rw [h1] at hx; cases hx
      · rw [h2] at hx; cases hx

/-- Witness for C2: the row ["abc", "Bob"] is rejected -- the first field is
non-numeric and there is no third field for the fallback. -/
theorem c2_name_fallback_reject_iff_witness :
    (decodeName ["abc".data, "Bob".data]).isOk = false ∧
    firstUsableB ["abc".data, "Bob".data] = false ∧
    (fallbackAppliesB ["abc".data, "Bob".data] &&
      thirdUsableB ["abc".data, "Bob".data]) = false :=
  ⟨(c2_name_fallback_reject_iff _ (by decide)).mpr ⟨by decide, by decide⟩,
    by decide, by decide⟩

/-- C9: a Name row accepted via the legacy fallback (first field nonempty
and non-numeric, third field all digits with nonzero value) is still mapped
per the primary layout -- name from the second field, type from the third
field (the digit string of the identity itself), gender from the fourth
field when present -- and every accepted Name row of either layout stores
absent description and notes. -/
theorem c9_fallback_primary_mapping :
    (∀ row : Row, 2 ≤ row.length → fallbackAppliesB row = true → thirdUsableB row = true →
      decodeName row = .ok (Int.ofNat (digitsToNat (field row 2)),
        { name := field row 1
          type := some (field row 2)
          gender := if 3 < row.length then some (field row 3) else none
          description := none
          notes := none })) ∧
    (∀ (row : Row) (p : Int × NameRec), decodeName row = .ok p →
      p.2.description = none ∧ p.2.notes = none) := by
  constructor
  · intro row hlen hfb hthird
    rw [fallbackAppliesB, Bool.and_eq_true] at hfb
    rw [thirdUsableB, Bool.and_eq_true, Bool.and_eq_true] at hthird
    obtain ⟨h0b, hpb⟩ := hfb
    obtain ⟨⟨hltb, hdig⟩, hnzb⟩ := hthird
    have h0 : ¬ field row 0 = [] := by simpa using h0b
    have hp : parseInt (field row 0) = none := by simpa using hpb
    have hlt : 2 < row.length := by simpa using hltb
    have hnz : ¬ digitsToNat (field row 2) = 0 := by simpa using hnzb
    simp [decodeName, show ¬ row.length < 2 by omega, h0, hp, hlt, hdig, hnz,
      show (1:Nat) < row.length by omega]
  · intro row p hok
    obtain ⟨pn, prec⟩ := p
    by_cases hsh : row.length < 2
    · rw [decodeName, if_pos hsh] at hok; cases hok
    · rw [decodeName, if_neg hsh] at hok
      by_cases h0 : field row 0 = []
      · simp [h0] at hok
      · cases hp : parseInt (field row 0) with
        | some n =>
          by_cases hn : n = 0
          · simp [h0, hp, hn] at hok
          · simp [h0, hp, hn] at hok
            rw [← hok.2]
            exact ⟨rfl, rfl⟩
        | none =>
          by_cases hf : 2 < row.length ∧ pyIsDigit (field row 2) = true
          · by_cases hz : digitsToNat (field row 2) = 0
            · simp [h0, hp, hf, hz] at hok
            · simp [h0, hp, hf, hz] at hok
              rw [← hok.2]
              exact ⟨rfl, rfl⟩
          · simp [h0, hp, hf] at hok

/-- Witness for C9: the fallback row ["abc", "Bob", "7"] decodes to identity
7 with name "Bob", type "7", absent gender, description and notes. -/
theorem c9_fallback_primary_mapping_witness :
    decodeName ["abc".data, "Bob".data, "7".data] =
      .ok (7, { name := "Bob".data, type := some "7".data, gender := none,
                description := none, notes := none }) := by
  have h := c9_fallback_primary_mapping.1 ["abc".data, "Bob".data, "7".data]
    (by decide) (by decide) (by decide)
  simpa using h

/-- C10: an accepted Item row always has at least ten fields, so the
stored category is the row's third field (never the "Reference" default)
and the stored timestamp is the row's tenth field (never the clock default):
the decoded record is the same whatever `now` is. -/
theorem c10_item_defaults_unreachable (now now2 : PyStr) (row : Row) (p : Int × ItemRec)
    (h : decodeItem now row = .ok p) :
    p.2.type = field row 2 ∧ p.2.modified_at = field row 9 ∧
      decodeItem now2 row = decodeItem now row := by
  by_cases hsh : row.length < 10
  · rw [decodeItem, if_pos hsh] at h; cases h
  · have hlen : 10 ≤ row.length := by omega
    have hcanon2 : decodeItem now2 row = decodeItem now row := by
      rw [@decodeItem_eq_of_len now2 row hlen, @decodeItem_eq_of_len now row hlen]
    rw [decodeItem_eq_of_len hlen] at h
    refine ⟨?_, ?_, hcanon2⟩ <;>
      (by_cases h0 : field row 0 = []
       · rw [if_pos h0] at h; cases h
       · rw [if_neg h0] at h
         cases hp : parseInt (field row 0) with
         | none => rw [hp] at h; cases h
         | some n =>
           rw [hp] at h
           by_cases hn : n = 0
           · simp [hn] at h
           · obtain ⟨pn, prec⟩ := p
             simp [hn] at h
             obtain ⟨h1, h2⟩ := h
             rw [← h2])

/-- Witness for C10 at a concrete ten-field row. -/
theorem c10_item_defaults_unreachable_witness :
    (decodeItem "CLOCK".data
        ["1".data, "w".data, "t".data, [], [], [], [], [], [], "d".data]).isOk = true ∧
    (decodeItem "OTHER".data ["1".data, "w".data, "t".data, [], [], [], [], [], [], "d".data]) =
      (decodeItem "CLOCK".data ["1".data, "w".data, "t".data, [], [], [], [], [], [], "d".data]) := by
  refine ⟨by decide, ?_⟩
  exact (c10_item_defaults_unreachable "CLOCK".data "OTHER".data
    ["1".data, "w".data, "t".data, [], [], [], [], [], [], "d".data]
    (1, { word := "w".data, type := "t".data, definition := none, derivation := none,
          appendicies := none, source := some [], source_pg := some [], mark := some [],
          modified_at := "d".data }) (by decide)).2.2

/-- C1 counterexample: an Item row whose identity field is "-5" -- which
does not parse as a positive integer -- is nevertheless accepted, with
identity -5; so "accepted only if the identity parses as a positive
integer" fails on the code. -/
theorem c1_counterexample :
    decodeItem [] ["-5".data, "w".data, "t".data, [], [], [], [], [], [], "d".data] =
      .ok (-5,
        { word := "w".data, type := "t".data, definition := none, derivation := none,
          appendicies := none, source := some [], source_pg := some [], mark := some [],
          modified_at := "d".data }) ∧ (-5 : Int) < 0 := by
  exact ⟨by decide, by decide⟩

/-- C1 amended: for the ID-bearing entity kinds the identity must parse as
a *nonzero* integer: an empty, zero, or non-numeric identity (after the
Name fallback where applicable) is a counted rejection, not a fatal error,
and no row is inserted for it; any nonzero identity -- including negative
ones -- is accepted. -/
theorem c1_amended_nonzero_identity :
    (∀ (now : PyStr) (row : Row), 10 ≤ row.length →
      ((decodeItem now row).isOk = true ↔ idUsableB row = true)) ∧
    (∀ row : Row, 2 ≤ row.length →
      ((decodeCliche row).isOk = true ↔ idUsableB row = true)) ∧
    (∀ row : Row, 2 ≤ row.length →
      ((decodeTerm row).isOk = true ↔ idUsableB row = true)) ∧
    (∀ row : Row, 2 ≤ row.length →
      ((decodeName row).isOk = true ↔
        (firstUsableB row || (fallbackAppliesB row && thirdUsableB row)) = true)) ∧
    (∀ (now : PyStr) (s : ItemState) (row : Row) (e : Reason),
      decodeItem now row = .error e →
      (itemStep now s row).store = s.store ∧ (itemStep now s row).errors = s.errors + 1) ∧
    (∀ (s : ClicheState) (row : Row) (e : Reason), decodeCliche row = .error e →
      (clicheStep s row).store = s.store ∧ (clicheStep s row).errors = s.errors + 1) ∧
    (∀ (s : TermState) (row : Row) (e : Reason), decodeTerm row = .error e →
      (termStep s row).store = s.store ∧ (termStep s row).errors = s.errors + 1) ∧
    (∀ (s : NameState) (row : Row) (e : NameReason), decodeName row = .error e →
      (nameStep s row).store = s.store ∧ (nameStep s row).errors = s.errors + 1) :=
  ⟨fun _ _ h => decodeItem_isOk_iff h,
   fun _ h => decodeCliche_isOk_iff h,
   fun _ h => decodeTerm_isOk_iff h,
   fun _ h => decodeName_isOk_iff h,
   fun _ _ _ _ hd => ⟨(itemStep_error hd).1, (itemStep_error hd).2.2⟩,
   fun _ _ _ hd => ⟨(clicheStep_error hd).1, (clicheStep_error hd).2.2⟩,
   fun _ _ _ hd => ⟨(termStep_error hd).1, (termStep_error hd).2.2⟩,
   fun _ _ _ hd => ⟨(nameStep_error hd).1, (nameStep_error hd).2.2⟩⟩

/-- Witness for C1 amended at concrete rows: identity "0" is rejected with
no insertion and an error count, identity "7" is accepted. -/
theorem c1_amended_nonzero_identity_witness :
    ((decodeItem [] [['0'], [], [], [], [], [], [], [], [], []]).isOk = true ↔
      idUsableB [['0'], [], [], [], [], [], [], [], [], []] = true) ∧
    ((decodeCliche [['7'], []]).isOk = true ↔ idUsableB [['7'], []] = true) ∧
    (itemStep [] ⟨[], 0, 0, 0⟩ [[]]).store = ([] : List (Int × ItemRec)) ∧
    (itemStep [] ⟨[], 0, 0, 0⟩ [[]]).errors = 1 := by
  have hstep := c1_amended_nonzero_identity.2.2.2.2.1 [] ⟨[], 0, 0, 0⟩ [[]]
    Reason.shape (by decide)
  exact ⟨c1_amended_nonzero_identity.1 [] _ (by decide),
    c1_amended_nonzero_identity.2.1 _ (by decide), hstep.1, hstep.2⟩

theorem mem_of_index {α : Type} : ∀ {l : List α} {i : Nat} {a : α}, l[i]? = some a → a ∈ l
  | [], i, a, h => by simp at h
  | x :: xs, 0, a, h => by
    simp at h
    simp [h]
  | x :: xs, i + 1, a, h => by
    simp at h
    exact List.mem_cons_of_mem _ (mem_of_index h)

theorem importItems_store_count (now : PyStr) (rows : List Row) :
    (importItems now rows).store = insertAll [] (decodedItems now rows) ∧
    (importItems now rows).count = (decodedItems now rows).length := by
  have h := importItems_fold now rows ⟨[], 0, 0, 0⟩
  unfold importItems
  refine ⟨h.1, ?_⟩
  rw [h.2]
  simp

theorem importLinks_store_count (rows : List Row) :
    (importLinks rows).store = insertAll [] (decodedLinks rows) ∧
    (importLinks rows).count = (decodedLinks rows).length := by
  have h := importLinks_fold rows ⟨[], 0, 0⟩
  unfold importLinks
  refine ⟨h.1, ?_⟩
  rw [h.2]
  simp

theorem importCliches_store_count (rows : List Row) :
    (importCliches rows).store = insertAll [] (decodedCliches rows) ∧
    (importCliches rows).count = (decodedCliches rows).length := by
  have h := importCliches_fold rows ⟨[], 0, 0⟩
  unfold importCliches
  refine ⟨h.1, ?_⟩
  rw [h.2]
  simp

theorem importNames_store_count (rows : List Row) :
    (importNames rows).store = insertAll [] (decodedNames rows) ∧
    (importNames rows).count = (decodedNames rows).length := by
  have h := importNames_fold rows ⟨[], 0, 0, 0⟩
  unfold importNames
  refine ⟨h.1, ?_⟩
  rw [h.2]
  simp

theorem importTerms_store_count (rows : List Row) :
    (importTerms rows).store = insertAll [] (decodedTerms rows) ∧
    (importTerms rows).count = (decodedTerms rows).length := by
  have h := importTerms_fold rows ⟨[], 0, 0⟩
  unfold importTerms
  refine ⟨h.1, ?_⟩
  rw [h.2]
  simp

theorem dup_store_facts {α : Type} {store dec : List (Int × α)} {id : Int} {vi : α}
    (hstore : store = insertAll [] dec) (hmem : (id, vi) ∈ dec) :
    countKey store id = 1 ∧
    lookupKey store id = lookupKey dec id ∧
    (store.map Prod.fst).Nodup := by
  have hkey : id ∈ dec.map Prod.fst := List.mem_map_of_mem Prod.fst hmem
  have hlookdec : (lookupKey dec id).isSome = true := (lookupKey_isSome_iff _ _).mpr hkey
  have hstore_lookup : lookupKey store id = lookupKey dec id := by
    rw [hstore]
    have h := lookupKey_insertAll dec ([] : List (Int × α)) id
    simpa [lookupKey] using h
  have hnodup : (store.map Prod.fst).Nodup := by
    rw [hstore]
    exact insertAll_keys_nodup _ _ (by simp)
  have hkeystore : id ∈ store.map Prod.fst := by
    rw [← lookupKey_isSome_iff, hstore_lookup]
    exact hlookdec
  exact ⟨countKey_eq_one_of_nodup hnodup hkeystore, hstore_lookup, hnodup⟩

/-- C4: for every ID-bearing entity kind (Item, Link, Cliché, Name,
Literary Term), when two accepted rows share an identity the final store
holds exactly one row under that identity, keeping the first-accepted
record (the store lookup equals the lookup over the accepted rows in input
order, which returns the first match), both rows are still counted as
accepted, and key uniqueness of the store is preserved. Source identities
are synthetically allocated and distinct by construction (see C3). -/
theorem c4_duplicate_identity :
    (∀ (now : PyStr) (rows : List Row) (i j : Nat) (ri rj : Row) (id : Int)
        (vi vj : ItemRec), i < j →
      rows[i]? = some ri → rows[j]? = some rj →
      decodeItem now ri = .ok (id, vi) → decodeItem now rj = .ok (id, vj) →
      countKey (importItems now rows).store id = 1 ∧
      lookupKey (importItems now rows).store id = lookupKey (decodedItems now rows) id ∧
      (importItems now rows).count = (decodedItems now rows).length ∧
      ((importItems now rows).store.map Prod.fst).Nodup) ∧
    (∀ (rows : List Row) (i j : Nat) (ri rj : Row) (id : Int) (vi vj : LinkRec), i < j →
      rows[i]? = some ri → rows[j]? = some rj →
      decodeLink ri = .ok (id, vi) → decodeLink rj = .ok (id, vj) →
      countKey (importLinks rows).store id = 1 ∧
      lookupKey (importLinks rows).store id = lookupKey (decodedLinks rows) id ∧
      (importLinks rows).count = (decodedLinks rows).length ∧
      ((importLinks rows).store.map Prod.fst).Nodup) ∧
    (∀ (rows : List Row) (i j : Nat) (ri rj : Row) (id : Int) (vi vj : ClicheRec), i < j →
      rows[i]? = some ri → rows[j]? = some rj →
      decodeCliche ri = .ok (id, vi) → decodeCliche rj = .ok (id, vj) →
      countKey (importCliches rows).store id = 1 ∧
      lookupKey (importCliches rows).store id = lookupKey (decodedCliches rows) id ∧
      (importCliches rows).count = (decodedCliches rows).length ∧
      ((importCliches rows).store.map Prod.fst).Nodup) ∧
    (∀ (rows : List Row) (i j : Nat) (ri rj : Row) (id : Int) (vi vj : NameRec), i < j →
      rows[i]? = some ri → rows[j]? = some rj →
      decodeName ri = .ok (id, vi) → decodeName rj = .ok (id, vj) →
      countKey (importNames rows).store id = 1 ∧
      lookupKey (importNames rows).store id = lookupKey (decodedNames rows) id ∧
      (importNames rows).count = (decodedNames rows).length ∧
      ((importNames rows).store.map Prod.fst).Nodup) ∧
    (∀ (rows : List Row) (i j : Nat) (ri rj : Row) (id : Int) (vi vj : TermRec), i < j →
      rows[i]? = some ri → rows[j]? = some rj →
      decodeTerm ri = .ok (id, vi) → decodeTerm rj = .ok (id, vj) →
      countKey (importTerms rows).store id = 1 ∧
      lookupKey (importTerms rows).store id = lookupKey (decodedTerms rows) id ∧
      (importTerms rows).count = (decodedTerms rows).length ∧
      ((importTerms rows).store.map Prod.fst).Nodup) := by
  refine ⟨?_, ?_, ?_, ?_, ?_⟩
  · intro now rows i j ri rj id vi vj hij hri hrj hdi hdj
    have hsc := importItems_store_count now rows
    have hmem : (id, vi) ∈ decodedItems now rows := by
      refine List.mem_filterMap.mpr ⟨ri, mem_of_index hri, ?_⟩
      rw [hdi]; rfl
    have hkey : id ∈ (decodedItems now rows).map Prod.fst :=
      List.mem_map_of_mem Prod.fst hmem
    have hlookdec : (lookupKey (decodedItems now rows) id).isSome = true :=
      (lookupKey_isSome_iff _ _).mpr hkey
    have hstore_lookup : lookupKey (importItems now rows).store id =
        lookupKey (decodedItems now rows) id := by
      rw [hsc.1]
      have h := lookupKey_insertAll (decodedItems now rows) ([] : List (Int × ItemRec)) id
      simpa [lookupKey] using h
    have hnodup : ((importItems now rows).store.map Prod.fst).Nodup := by
      rw [hsc.1]
      exact insertAll_keys_nodup _ _ (by simp)
    have hkeystore : id ∈ (importItems now rows).store.map Prod.fst := by
      rw [← lookupKey_isSome_iff, hstore_lookup]
      exact hlookdec
    exact ⟨countKey_eq_one_of_nodup hnodup hkeystore, hstore_lookup, hsc.2, hnodup⟩
  · intro rows i j ri rj id vi vj hij hri hrj hdi hdj
    have hsc := importLinks_store_count rows
    have hmem : (id, vi) ∈ decodedLinks rows := by
      refine List.mem_filterMap.mpr ⟨ri, mem_of_index hri, ?_⟩
      rw [hdi]; rfl
    have hkey : id ∈ (decodedLinks rows).map Prod.fst :=
      List.mem_map_of_mem Prod.fst hmem
    have hlookdec : (lookupKey (decodedLinks rows) id).isSome = true :=
      (lookupKey_isSome_iff _ _).mpr hkey
    have hstore_lookup : lookupKey (importLinks rows).store id =
        lookupKey (decodedLinks rows) id := by
      rw [hsc.1]
      have h := lookupKey_insertAll (decodedLinks rows) ([] : List (Int × LinkRec)) id
      simpa [lookupKey] using h
    have hnodup : ((importLinks rows).store.map Prod.fst).Nodup := by
      rw [hsc.1]
      exact insertAll_keys_nodup _ _ (by simp)
    have hkeystore : id ∈ (importLinks rows).store.map Prod.fst := by
      rw [← lookupKey_isSome_iff, hstore_lookup]
      exact hlookdec
    exact ⟨countKey_eq_one_of_nodup hnodup hkeystore, hstore_lookup, hsc.2, hnodup⟩
  · intro rows i j ri rj id vi vj hij hri hrj hdi hdj
    have hsc := importCliches_store_count rows
    have hmem : (id, vi) ∈ decodedCliches rows := by
      refine List.mem_filterMap.mpr ⟨ri, mem_of_index hri, ?_⟩
      rw [hdi]; rfl
    obtain ⟨h1, h2, h3⟩ := dup_store_facts hsc.1 hmem
    exact ⟨h1, h2, hsc.2, h3⟩
  · intro rows i j ri rj id vi vj hij hri hrj hdi hdj
    have hsc := importNames_store_count rows
    have hmem : (id, vi) ∈ decodedNames rows := by
      refine List.mem_filterMap.mpr ⟨ri, mem_of_index hri, ?_⟩
      rw [hdi]; rfl
    obtain ⟨h1, h2, h3⟩ := dup_store_facts hsc.1 hmem
    exact ⟨h1, h2, hsc.2, h3⟩
  · intro rows i j ri rj id vi vj hij hri hrj hdi hdj
    have hsc := importTerms_store_count rows
    have hmem : (id, vi) ∈ decodedTerms rows := by
      refine List.mem_filterMap.mpr ⟨ri, mem_of_index hri, ?_⟩
      rw [hdi]; rfl
    obtain ⟨h1, h2, h3⟩ := dup_store_facts hsc.1 hmem
    exact ⟨h1, h2, hsc.2, h3⟩

/-- Witness for C4: two Item rows with identity 1, two Link rows with
identity 5, two Cliché rows with identity 3, two Name rows with identity 4,
and two Literary Term rows with identity 6. -/
theorem c4_duplicate_identity_witness :
    (countKey (importItems []
        [["1".data, "a".data, "t".data, [], [], [], [], [], [], "d".data],
         ["1".data, "b".data, "t".data, [], [], [], [], [], [], "d".data]]).store 1 = 1 ∧
      lookupKey (importItems []
        [["1".data, "a".data, "t".data, [], [], [], [], [], [], "d".data],
         ["1".data, "b".data, "t".data, [], [], [], [], [], [], "d".data]]).store 1 =
        lookupKey (decodedItems []
          [["1".data, "a".data, "t".data, [], [], [], [], [], [], "d".data],
           ["1".data, "b".data, "t".data, [], [], [], [], [], [], "d".data]]) 1 ∧
      (importItems []
        [["1".data, "a".data, "t".data, [], [], [], [], [], [], "d".data],
         ["1".data, "b".data, "t".data, [], [], [], [], [], [], "d".data]]).count =
        (decodedItems []
          [["1".data, "a".data, "t".data, [], [], [], [], [], [], "d".data],
           ["1".data, "b".data, "t".data, [], [], [], [], [], [], "d".data]]).length ∧
      ((importItems []
        [["1".data, "a".data, "t".data, [], [], [], [], [], [], "d".data],
         ["1".data, "b".data, "t".data, [], [], [], [], [], [], "d".data]]).store.map
          Prod.fst).Nodup) ∧
    countKey (importLinks
      [["5".data, "1".data, "2".data], ["5".data, "9".data, "9".data]]).store 5 = 1 ∧
    countKey (importCliches
      [["3".data, "p".data], ["3".data, "q".data]]).store 3 = 1 ∧
    countKey (importNames
      [["4".data, "A".data], ["4".data, "B".data]]).store 4 = 1 ∧
    countKey (importTerms
      [["6".data, "x".data], ["6".data, "y".data]]).store 6 = 1 := by
  refine ⟨?_, ?_, ?_, ?_, ?_⟩
  · exact c4_duplicate_identity.1 []
      [["1".data, "a".data, "t".data, [], [], [], [], [], [], "d".data],
       ["1".data, "b".data, "t".data, [], [], [], [], [], [], "d".data]] 0 1
      ["1".data, "a".data, "t".data, [], [], [], [], [], [], "d".data]
      ["1".data, "b".data, "t".data, [], [], [], [], [], [], "d".data] 1
      { word := "a".data, type := "t".data, definition := none, derivation := none,
        appendicies := none, source := some [], source_pg := some [], mark := some [],
        modified_at := "d".data }
      { word := "b".data, type := "t".data, definition := none, derivation := none,
        appendicies := none, source := some [], source_pg := some [], mark := some [],
        modified_at := "d".data }
      (by decide) (by decide) (by decide) (by decide) (by decide)
  · exact (c4_duplicate_identity.2.1
      [["5".data, "1".data, "2".data], ["5".data, "9".data, "9".data]] 0 1
      ["5".data, "1".data, "2".data] ["5".data, "9".data, "9".data] 5
      { source_item_id := 1, destination_item_id := 2, link_type := "related".data }
      { source_item_id := 9, destination_item_id := 9, link_type := "related".data }
      (by decide) (by decide) (by decide) (by decide) (by decide)).1
  · exact (c4_duplicate_identity.2.2.1
      [["3".data, "p".data], ["3".data, "q".data]] 0 1
      ["3".data, "p".data] ["3".data, "q".data] 3
      { phrase := "p".data, definition := none }
      { phrase := "q".data, definition := none }
      (by decide) (by decide) (by decide) (by decide) (by decide)).1
  · exact (c4_duplicate_identity.2.2.2.1
      [["4".data, "A".data], ["4".data, "B".data]] 0 1
      ["4".data, "A".data] ["4".data, "B".data] 4
      { name := "A".data, type := none, gender := none, description := none, notes := none }
      { name := "B".data, type := none, gender := none, description := none, notes := none }
      (by decide) (by decide) (by decide) (by decide) (by decide)).1
  · exact (c4_duplicate_identity.2.2.2.2
      [["6".data, "x".data], ["6".data, "y".data]] 0 1
      ["6".data, "x".data] ["6".data, "y".data] 6
      { term := "x".data, type := none, definition := none, examples := none, notes := none }
      { term := "y".data, type := none, definition := none, examples := none, notes := none }
      (by decide) (by decide) (by decide) (by decide) (by decide)).1

/-- C3: the Source synthetic key counter starts at 1000 and advances by
exactly one per accepted row (on any input the counter equals 1000 plus the
accepted count, so rejected rows never advance it), and on an input of N
rows that all pass the shape and title checks the stored identities are
exactly 1000, ..., 1000+N-1 in input order. -/
theorem c3_source_counter :
    (∀ rows : List Row,
      (importSources rows).source_id = 1000 + (importSources rows).count) ∧
    (∀ rows : List Row, (∀ r ∈ rows, 2 ≤ r.length ∧ titleOf r ≠ []) →
      (importSources rows).store.map Prod.fst = List.range' 1000 rows.length) := by
  constructor
  · intro rows
    obtain ⟨ha, hb⟩ := importSources_counts rows ⟨[], 0, 0, 1000⟩
    simp only [] at ha hb
    unfold importSources
    simp at ha hb
    omega
  · intro rows hrows
    have h := importSources_all_accepted rows ⟨[], 0, 0, 1000⟩ hrows
      (by intro k hk; simp at hk)
    unfold importSources
    simpa using h

/-- Witness for C3: two accepted source rows get identities 1000 and 1001. -/
theorem c3_source_counter_witness :
    (importSources [["au".data, "sn".data, "ti".data],
      ["a2".data, "s2".data]]).store.map Prod.fst = [1000, 1001] :=
  (c3_source_counter.2 [["au".data, "sn".data, "ti".data], ["a2".data, "s2".data]]
    (by decide)).trans (by decide)

/-- C8 counterexample: the Name importer prints the whole faulting row (its
`Skipping row with invalid ID` message) for every fallback-failed identity,
with no cap: 100 such rows produce 100 row-context prints, while the claim
asserts a small constant bound for every entity kind. -/
theorem c8_counterexample :
    (importNames (List.replicate 100 ["x".data, "y".data])).ctxPrints = 100 ∧ ¬ 100 ≤ 4 := by
  exact ⟨by decide, by decide⟩

/-- C8 amended: row-context printing is capped only in the Item importer
(at most the first four caught faults print row data); the Name importer
prints the full row for every row whose identity fails both the primary
parse and the legacy fallback, so its context prints equal the number of
such rows and grow without bound; the remaining importers print no row
fields. -/
theorem c8_amended_context_prints :
    (∀ (now : PyStr) (rows : List Row), (importItems now rows).ctxPrints ≤ 4) ∧
    (∀ rows : List Row, (importNames rows).ctxPrints =
      rows.countP fun r => decide (decodeName r = .error .identInvalid)) := by
  constructor
  · exact importItems_ctx_le
  · intro rows
    have h := importNames_ctx_fold rows ⟨[], 0, 0, 0⟩
    unfold importNames
    simpa using h
